import Mathlib

/-!
Shallow embedding of the leak-detection core of the `thirtysecs` repository:
`src/thirtysecs/leak_report.py` (batch analyzer) and `src/thirtysecs/alerts.py`
(streaming `MemoryLeakDetector`).  Python floats are modelled as exact
rationals (`ℚ`), Python ints as `ℤ`/`ℕ`, raised exceptions as `Except.error`.
Interpolated numeric parts of diagnosis / alert message strings are elided
(no claim concerns them); the field `increasing_ratio` of the source is
rendered `increasingFrac` here.
-/

namespace ThirtySecs

/-- Embedding of the dataclass `MetricDelta` of `leak_report.py`:
delta summary for one metric.  `growthPercent = none` models Python `None`. -/
structure MetricDelta where
  start : ℚ
  endVal : ℚ
  growth : ℚ
  growthPercent : Option ℚ
  increasingFrac : ℚ
  slope : ℚ
  rSquared : ℚ
  deriving DecidableEq

/-- Embedding of the dataclass `LeakSample` of `leak_report.py`. -/
structure LeakSample where
  timestamp : String
  rss : ℤ
  uss : Option ℤ
  pss : Option ℤ
  threads : ℤ
  openFiles : ℤ
  connections : ℤ
  deriving DecidableEq

/-- Embedding of `_linear_regression` of `leak_report.py`: ordinary
least-squares `(slope, r_squared)` of a series against its indices.
`values.getD i 0` reads the `i`-th element, matching `enumerate(values)`
over `i < values.length`. -/
def linearRegression (values : List ℚ) : ℚ × ℚ :=
  let n := values.length
  if n < 2 then (0, 0)
  else
    let xMean : ℚ := ((n : ℚ) - 1) / 2
    let yMean : ℚ := values.sum / (n : ℚ)
    let ssXY : ℚ := ∑ i ∈ Finset.range n, (((i : ℚ) - xMean) * (values.getD i 0 - yMean))
    let ssXX : ℚ := ∑ i ∈ Finset.range n, ((i : ℚ) - xMean) ^ 2
    let ssYY : ℚ := ∑ i ∈ Finset.range n, (values.getD i 0 - yMean) ^ 2
    if ssXX = 0 ∨ ssYY = 0 then (0, 0)
    else (ssXY / ssXX, ssXY ^ 2 / (ssXX * ssYY))

/-- Count of adjacent strictly-increasing pairs, the sum inside
`_increasing_ratio` of `leak_report.py`. -/
def increasingCount : List ℚ → ℕ
  | [] => 0
  | [_] => 0
  | a :: b :: t => (if a < b then 1 else 0) + increasingCount (b :: t)

/-- Embedding of `_increasing_ratio` of `leak_report.py`: fraction of
consecutive samples that increased, `0` for series shorter than 2. -/
def increasingFrac (values : List ℚ) : ℚ :=
  if values.length < 2 then 0
  else (increasingCount values : ℚ) / ((values.length : ℚ) - 1)

/-- Embedding of `_metric_delta` of `leak_report.py`.  `headD 0` / `getLastD 0`
model `values[0]` / `values[-1]` (every caller passes a non-empty list). -/
def metricDelta (values : List ℚ) : MetricDelta :=
  let start := values.headD 0
  let endVal := values.getLastD 0
  let growth := endVal - start
  let growthPercent : Option ℚ := if 0 < start then some (growth / start * 100) else none
  let sr := linearRegression values
  ⟨start, endVal, growth, growthPercent, increasingFrac values, sr.1, sr.2⟩

/-- Embedding of `_optional_metric_delta` of `leak_report.py`: drop the
absent readings; below two present values the delta is absent. -/
def optionalMetricDelta (values : List (Option ℤ)) : Option MetricDelta :=
  let filtered := (values.filterMap id).map (fun v => (v : ℚ))
  if filtered.length < 2 then none else some (metricDelta filtered)

/-- Embedding of `_confidence_from_metrics` of `leak_report.py`: the tiered
decision policy mapping (rss delta, optional uss delta, sample count) to
(confidence tier, score, diagnosis).  Thresholds `0.5, 0.7, 0.6, 0.55, 0.3,
0.8` are the exact rationals `1/2, 7/10, 6/10, 11/20, 3/10, 4/5`. -/
def confidenceFromMetrics (rss : MetricDelta) (uss : Option MetricDelta)
    (sampleCount : ℕ) : String × ℕ × String :=
  let rssGrowthPct := rss.growthPercent.getD 0
  let rssTrend := rss.increasingFrac
  let rssR2 := rss.rSquared
  let ussGrowthPct := match uss with | some u => u.growthPercent.getD 0 | none => 0
  let ussR2 := match uss with | some u => u.rSquared | none => 0
  let shortWindow := sampleCount < 5
  let veryShortWindow := sampleCount < 3
  if veryShortWindow then
    if 3 ≤ rssGrowthPct ∧ (1/2 : ℚ) ≤ rssTrend then
      ("low", 30, "Only 2 samples captured — early signal but insufficient data.")
    else ("none", 10, "Not enough samples for meaningful analysis.")
  else if 15 ≤ rssGrowthPct ∧ (7/10 : ℚ) ≤ rssTrend ∧ (6/10 : ℚ) ≤ rssR2 ∧ ¬ shortWindow then
    if uss.isSome ∧ 10 ≤ ussGrowthPct ∧ (1/2 : ℚ) ≤ ussR2 then
      ("high", 95, "RSS and USS both trend upward strongly with high R² (likely real retention leak).")
    else
      ("high", 85, "RSS grows strongly with consistent upward trend.")
  else if 15 ≤ rssGrowthPct ∧ (7/10 : ℚ) ≤ rssTrend ∧ ¬ shortWindow then
    if uss.isSome ∧ 10 ≤ ussGrowthPct then
      ("high", 80, "RSS and USS grow strongly (noisy trend, capture longer window).")
    else
      ("high", 75, "RSS grows strongly with consistent upward trend.")
  else if 7 ≤ rssGrowthPct ∧ (6/10 : ℚ) ≤ rssTrend then
    if uss.isSome ∧ 5 ≤ ussGrowthPct then
      ("medium", 70, "Moderate RSS/USS growth with upward trend.")
    else
      ("medium", 60, "Moderate RSS growth trend; verify with longer capture.")
  else if 3 ≤ rssGrowthPct ∧ (11/20 : ℚ) ≤ rssTrend ∧ (3/10 : ℚ) ≤ rssR2 then
    ("low", 40, "Early growth signal detected; capture longer window to confirm.")
  else if 0 < rss.slope ∧ (4/5 : ℚ) ≤ rssR2 ∧ 1 ≤ rssGrowthPct then
    ("low", 35, "Slow but highly linear RSS growth; capture a longer window to confirm.")
  else
    ("none", 10, "No strong leak pattern in current capture window.")

/-- Resource kinds named by the warnings of `_check_resource_correlation`. -/
inductive ResourceKind where
  | threads
  | openFiles
  | connections
  deriving DecidableEq

/-- Content of one warning emitted by `_check_resource_correlation`: the
resource it names plus the absolute growth and trend fraction the message
interpolates. -/
structure ResourceWarning where
  kind : ResourceKind
  growth : ℚ
  trendFrac : ℚ
  deriving DecidableEq

/-- Per-resource gate of `_check_resource_correlation`:
`growth > 0 and increasing_ratio >= 0.6`. -/
def resourceGrowing (d : MetricDelta) : Bool :=
  decide (0 < d.growth ∧ (6/10 : ℚ) ≤ d.increasingFrac)

/-- Embedding of `_check_resource_correlation` of `leak_report.py`. -/
def checkResourceCorrelation (threads openFiles connections : MetricDelta) :
    Bool × List ResourceWarning :=
  let wT : List ResourceWarning :=
    if resourceGrowing threads then [⟨.threads, threads.growth, threads.increasingFrac⟩] else []
  let wF : List ResourceWarning :=
    if resourceGrowing openFiles then
      [⟨.openFiles, openFiles.growth, openFiles.increasingFrac⟩] else []
  let wC : List ResourceWarning :=
    if resourceGrowing connections then
      [⟨.connections, connections.growth, connections.increasingFrac⟩] else []
  (resourceGrowing threads || resourceGrowing openFiles || resourceGrowing connections,
   wT ++ wF ++ wC)

/-- Embedding of the dataclass `LeakAnalysis` of `leak_report.py`. -/
structure LeakAnalysis where
  sampleCount : ℕ
  durationSeconds : ℚ
  rss : MetricDelta
  uss : Option MetricDelta
  pss : Option MetricDelta
  threads : MetricDelta
  openFiles : MetricDelta
  connections : MetricDelta
  confidence : String
  score : ℕ
  diagnosis : String
  resourceCorrelated : Bool
  resourceWarnings : List ResourceWarning
  deriving DecidableEq

/-- Embedding of `analyze_samples` of `leak_report.py`.  The only `raise`
is the empty-list guard; everything after it is total arithmetic. -/
def analyzeSamples (samples : List LeakSample) (intervalSeconds : ℚ) :
    Except String LeakAnalysis :=
  if samples.isEmpty then Except.error "samples cannot be empty"
  else
    let rss := metricDelta (samples.map (fun s => (s.rss : ℚ)))
    let uss := optionalMetricDelta (samples.map (fun s => s.uss))
    let pss := optionalMetricDelta (samples.map (fun s => s.pss))
    let threads := metricDelta (samples.map (fun s => (s.threads : ℚ)))
    let openFiles := metricDelta (samples.map (fun s => (s.openFiles : ℚ)))
    let connections := metricDelta (samples.map (fun s => (s.connections : ℚ)))
    let csd := confidenceFromMetrics rss uss samples.length
    let duration := max 0 (((samples.length : ℚ) - 1) * intervalSeconds)
    let rc := checkResourceCorrelation threads openFiles connections
    Except.ok
      ⟨samples.length, duration, rss, uss, pss, threads, openFiles, connections,
       csd.1, csd.2.1, csd.2.2, rc.1, rc.2⟩

/-- Embedding of the dataclass `AlertRule` of `alerts.py` (message string,
being pure float interpolation, elided). -/
structure AlertRule where
  name : String
  metric : String
  operator : String
  threshold : ℚ
  deriving DecidableEq

/-- Embedding of the dataclass `Alert` of `alerts.py`. -/
structure Alert where
  rule : AlertRule
  value : ℚ
  deriving DecidableEq

/-- Configuration of `MemoryLeakDetector` of `alerts.py`: the constructor
fields `window_size`, `growth_threshold`, `cooldown_samples`.  These are
never mutated after construction. -/
structure DetCfg where
  windowSize : ℕ
  growthThreshold : ℚ
  cooldownSamples : ℤ
  deriving DecidableEq

/-- Mutable state of `MemoryLeakDetector`: the `deque(maxlen=window_size)`
history (most recent last) and the `_samples_since_alert` counter. -/
structure DetState where
  hist : List ℚ
  cooldown : ℤ
  deriving DecidableEq

/-- Fresh detector state as left by `__post_init__`: empty history,
`_samples_since_alert = 0`. -/
def initState : DetState := ⟨[], 0⟩

/-- Embedding of `MemoryLeakDetector(...)` construction: `__post_init__`
builds `deque(maxlen=window_size)`, which raises iff `window_size < 0`
(the `deque` maxlen contract); no other field is validated. -/
def mkDetector (windowSize : ℤ) (growthThreshold : ℚ) (cooldownSamples : ℤ) :
    Except String (DetCfg × DetState) :=
  if windowSize < 0 then Except.error "maxlen must be non-negative"
  else Except.ok (⟨windowSize.toNat, growthThreshold, cooldownSamples⟩, initState)

/-- Appending to a `deque(maxlen=w)`: the oldest entries beyond capacity
are evicted. -/
def pushWindow (w : ℕ) (h : List ℚ) (v : ℚ) : List ℚ :=
  let h2 := h ++ [v]
  h2.drop (h2.length - w)

/-- Embedding of `MemoryLeakDetector.add_sample`: append the sample and
decrement the cooldown counter if it is positive. -/
def addSample (cfg : DetCfg) (st : DetState) (v : ℚ) : DetState :=
  ⟨pushWindow cfg.windowSize st.hist v,
   if 0 < st.cooldown then st.cooldown - 1 else st.cooldown⟩

/-- Embedding of the static method `MemoryLeakDetector._slope`:
least-squares slope of the samples against their indices. -/
def detSlope (samples : List ℚ) : ℚ :=
  let n := samples.length
  if n < 2 then 0
  else
    let xMean : ℚ := ((n : ℚ) - 1) / 2
    let yMean : ℚ := samples.sum / (n : ℚ)
    let ssXY : ℚ := ∑ i ∈ Finset.range n, (((i : ℚ) - xMean) * (samples.getD i 0 - yMean))
    let ssXX : ℚ := ∑ i ∈ Finset.range n, ((i : ℚ) - xMean) ^ 2
    if ssXX = 0 then 0 else ssXY / ssXX

/-- Embedding of `MemoryLeakDetector.check_leak`: returns the optional
alert together with the post-call state (the Python method mutates
`_samples_since_alert` in place when it fires).  `0.6` is the exact
rational `6/10`. -/
def checkLeak (cfg : DetCfg) (st : DetState) : Option Alert × DetState :=
  if st.hist.length < cfg.windowSize then (none, st)
  else if 0 < st.cooldown then (none, st)
  else
    let samples := st.hist
    let half := cfg.windowSize / 2
    let firstHalfAvg := (samples.take half).sum / (half : ℚ)
    let secondHalfAvg := (samples.drop half).sum / ((cfg.windowSize - half : ℕ) : ℚ)
    let growth := secondHalfAvg - firstHalfAvg
    let trend : ℚ := (increasingCount samples : ℚ) / ((samples.length : ℚ) - 1)
    if cfg.growthThreshold ≤ growth ∧ (6/10 : ℚ) ≤ trend then
      (some ⟨⟨"Memory Leak Detected", "memory.virtual.percent", "trend",
             cfg.growthThreshold⟩, growth⟩,
       ⟨st.hist, cfg.cooldownSamples⟩)
    else (none, st)

/-- One driving step of the streaming detector in the add-then-check
protocol of `AlertChecker.check`: ingest one sample, then check. -/
def step (cfg : DetCfg) (st : DetState) (v : ℚ) : Option Alert × DetState :=
  checkLeak cfg (addSample cfg st v)

/-- State after driving `n` add-then-check steps on the sample stream
`vals` from a fresh detector. -/
def runDet (cfg : DetCfg) (vals : ℕ → ℚ) : ℕ → DetState
  | 0 => initState
  | n + 1 => (step cfg (runDet cfg vals n) (vals n)).2

/-- Output of the `n`-th (0-indexed) add-then-check step on the sample
stream `vals`. -/
def outAt (cfg : DetCfg) (vals : ℕ → ℚ) (n : ℕ) : Option Alert :=
  (step cfg (runDet cfg vals n) (vals n)).1

/-- One detector operation: a single `add_sample` or a single `check_leak`.
Arbitrary interleavings of these generate every reachable state. -/
inductive DetOp where
  | add (v : ℚ)
  | check
  deriving DecidableEq

/-- Apply one operation to a detector state. -/
def applyOp (cfg : DetCfg) (st : DetState) : DetOp → DetState
  | .add v => addSample cfg st v
  | .check => (checkLeak cfg st).2

/-- State reached from a fresh detector by a sequence of operations. -/
def runOps (cfg : DetCfg) (ops : List DetOp) : DetState :=
  ops.foldl (applyOp cfg) initState

/-! Concrete inputs used by counterexamples and witnesses, plus the
arithmetic-series constructor the trend claims quantify over. -/

/-- Arithmetic series `values[i] = a + i * d` of length `n`. -/
def arithList (n : ℕ) (a d : ℚ) : List ℚ :=
  (List.range n).map (fun i : ℕ => a + d * (i : ℚ))

/-- A leak sample with the given resident memory and all auxiliary counts
flat (threads 10, open files 5, connections 2), uss/pss absent. -/
def rssSample (rss : ℤ) : LeakSample := ⟨"t", rss, none, none, 10, 5, 2⟩

/-- Three samples with rss 100, 115, 130: growth 30%, trend 1, R² = 1. -/
def threeGrowthSamples : List LeakSample :=
  [rssSample 100, rssSample 115, rssSample 130]

/-- Five samples with rss 100, 115, 130, 145, 160: growth 60%, trend 1,
R² = 1. -/
def fiveGrowthSamples : List LeakSample :=
  [rssSample 100, rssSample 115, rssSample 130, rssSample 145, rssSample 160]

/-- Detector configuration `window_size = 2`, `growth_threshold = 1`,
`cooldown_samples = 1` used to refute the claimed cooldown count. -/
def cfgCooldownOne : DetCfg := ⟨2, 1, 1⟩

/-- The identity sample stream `0, 1, 2, …`. -/
def idStream : ℕ → ℚ := fun i => (i : ℚ)

/-- Detector configuration `window_size = 3`, `growth_threshold = 1`,
`cooldown_samples = 3` used by the streaming witnesses. -/
def cfgWitness : DetCfg := ⟨3, 1, 3⟩

/-- The sample stream `50, 60, 70, …` (constant growth 10 per sample). -/
def growthStream : ℕ → ℚ := fun i => 50 + 10 * (i : ℚ)

/-! General-purpose helper lemmas about list sums and arithmetic series. -/

/-- Sum of a mapped range as a `Finset` sum. -/
lemma sum_list_range (f : ℕ → ℚ) (n : ℕ) :
    ((List.range n).map f).sum = ∑ i ∈ Finset.range n, f i := by
  induction n with
  | zero => simp
  | succ n ih =>
    rw [List.range_succ, List.map_append, List.sum_append, Finset.sum_range_succ, ih]
    simp

/-- Gauss sum over `ℚ`. -/
lemma sum_range_cast (n : ℕ) : ∑ i ∈ Finset.range n, (i : ℚ) = n * ((n : ℚ) - 1) / 2 := by
  induction n with
  | zero => simp
  | succ n ih => rw [Finset.sum_range_succ, ih]; push_cast; ring

lemma arithList_length (n : ℕ) (a d : ℚ) : (arithList n a d).length = n := by
  rw [arithList, List.length_map, List.length_range]

lemma arithList_getD (n : ℕ) (a d : ℚ) (i : ℕ) (hi : i < n) :
    (arithList n a d).getD i 0 = a + d * i := by
  rw [List.getD_eq_getElem _ _ (by rw [arithList_length]; omega)]
  simp only [arithList, List.getElem_map, List.getElem_range]

lemma arithList_sum (n : ℕ) (a d : ℚ) :
    (arithList n a d).sum = n * a + d * (n * ((n : ℚ) - 1) / 2) := by
  rw [arithList, sum_list_range, Finset.sum_add_distrib, Finset.sum_const, ← Finset.mul_sum,
    sum_range_cast, Finset.card_range, nsmul_eq_mul]

/-- Splitting an arithmetic series off the front: the tail is the
arithmetic series started one step later. -/
lemma arithList_cons (n : ℕ) (a d : ℚ) :
    arithList (n + 1) a d = a :: arithList n (a + d) d := by
  rw [arithList, List.range_succ_eq_map, List.map_cons, List.map_map]
  simp only [Nat.cast_zero, mul_zero, add_zero]
  rw [arithList]
  refine congrArg (a :: ·) (List.map_congr_left fun j _ => ?_)
  simp only [Function.comp_apply, Nat.cast_succ]
  ring

/-- Splitting an arithmetic series off the back. -/
lemma arithList_snoc (n : ℕ) (a d : ℚ) :
    arithList (n + 1) a d = arithList n a d ++ [a + d * n] := by
  rw [arithList, List.range_succ, List.map_append, List.map_cons, List.map_nil, arithList]

/-- An arithmetic prefix of an arithmetic series. -/
lemma arithList_take (n m : ℕ) (a d : ℚ) (h : m ≤ n) :
    (arithList n a d).take m = arithList m a d := by
  rw [arithList, arithList, ← List.map_take, List.take_range, Nat.min_eq_left h]

/-- The index sum-of-squares of any series of length at least 2 is
strictly positive. -/
lemma ssxx_pos (n : ℕ) (h2 : 2 ≤ n) :
    0 < ∑ i ∈ Finset.range n, ((i : ℚ) - ((n : ℚ) - 1) / 2) ^ 2 := by
  apply Finset.sum_pos' (fun i _ => sq_nonneg _)
  refine ⟨0, Finset.mem_range.mpr (by omega), ?_⟩
  have hn : (2 : ℚ) ≤ (n : ℚ) := by exact_mod_cast h2
  have hne : ((0 : ℕ) : ℚ) - ((n : ℚ) - 1) / 2 ≠ 0 := by
    push_cast
    intro h
    have : ((n : ℚ) - 1) / 2 = 0 := by linarith
    rw [div_eq_zero_iff] at this
    rcases this with h' | h'
    · linarith
    · norm_num at h'
  exact lt_of_le_of_ne (sq_nonneg _) (Ne.symm (pow_ne_zero 2 hne))

/-- Closed form of `linearRegression` on an arithmetic series: slope is
the step, fit is perfect. -/
lemma linearRegression_arith (n : ℕ) (a d : ℚ) (h2 : 2 ≤ n) (hd : d ≠ 0) :
    linearRegression (arithList n a d) = (d, 1) := by
  have hn0 : (n : ℚ) ≠ 0 := Nat.cast_ne_zero.mpr (by omega)
  have hlen := arithList_length n a d
  have hym : (arithList n a d).sum / (n : ℚ) = a + d * (((n : ℚ) - 1) / 2) := by
    rw [arithList_sum]; field_simp; ring
  have hdev : ∀ i ∈ Finset.range n,
      (arithList n a d).getD i 0 - (a + d * (((n : ℚ) - 1) / 2)) =
        d * ((i : ℚ) - ((n : ℚ) - 1) / 2) := by
    intro i hi
    rw [arithList_getD n a d i (Finset.mem_range.mp hi)]
    ring
  have hxy : (∑ i ∈ Finset.range n,
      (((i : ℚ) - ((n : ℚ) - 1) / 2) *
        ((arithList n a d).getD i 0 - (a + d * (((n : ℚ) - 1) / 2))))) =
      d * ∑ i ∈ Finset.range n, ((i : ℚ) - ((n : ℚ) - 1) / 2) ^ 2 := by
    rw [Finset.mul_sum]
    refine Finset.sum_congr rfl fun i hi => ?_
    rw [hdev i hi]; ring
  have hyy : (∑ i ∈ Finset.range n,
      ((arithList n a d).getD i 0 - (a + d * (((n : ℚ) - 1) / 2))) ^ 2) =
      d ^ 2 * ∑ i ∈ Finset.range n, ((i : ℚ) - ((n : ℚ) - 1) / 2) ^ 2 := by
    rw [Finset.mul_sum]
    refine Finset.sum_congr rfl fun i hi => ?_
    rw [hdev i hi]; ring
  have hXpos := ssxx_pos n h2
  simp only [linearRegression, hlen]
  rw [if_neg (by omega : ¬ n < 2), hym, hxy, hyy]
  have hd2 : 0 < d ^ 2 := lt_of_le_of_ne (sq_nonneg d) (Ne.symm (pow_ne_zero 2 hd))
  rw [if_neg (by
    push_neg
    exact ⟨ne_of_gt hXpos, ne_of_gt (mul_pos hd2 hXpos)⟩)]
  set X := ∑ i ∈ Finset.range n, ((i : ℚ) - ((n : ℚ) - 1) / 2) ^ 2 with hX
  have hXne : X ≠ 0 := ne_of_gt hXpos
  simp only [Prod.mk.injEq]
  constructor
  · rw [mul_div_assoc, div_self hXne, mul_one]
  · rw [mul_pow]
    rw [show X * (d ^ 2 * X) = d ^ 2 * X ^ 2 by ring]
    exact div_self (by positivity)

/-- Bounds on the r-squared component for arbitrary input. -/
lemma rSquared_bounds (values : List ℚ) :
    0 ≤ (linearRegression values).2 ∧ (linearRegression values).2 ≤ 1 := by
  by_cases h : values.length < 2
  · simp [linearRegression, h]
  · simp only [linearRegression, if_neg h]
    set n := values.length with hn
    set xm : ℚ := ((n : ℚ) - 1) / 2 with hxm
    set ym : ℚ := values.sum / (n : ℚ) with hym
    set sxy := ∑ i ∈ Finset.range n, (((i : ℚ) - xm) * (values.getD i 0 - ym)) with hsxy
    set sxx := ∑ i ∈ Finset.range n, ((i : ℚ) - xm) ^ 2 with hsxx
    set syy := ∑ i ∈ Finset.range n, (values.getD i 0 - ym) ^ 2 with hsyy
    by_cases hz : sxx = 0 ∨ syy = 0
    · rw [if_pos hz]; norm_num
    · rw [if_neg hz]
      push_neg at hz
      have hxx : 0 < sxx :=
        lt_of_le_of_ne (Finset.sum_nonneg fun i _ => sq_nonneg _) (Ne.symm hz.1)
      have hyy : 0 < syy :=
        lt_of_le_of_ne (Finset.sum_nonneg fun i _ => sq_nonneg _) (Ne.symm hz.2)
      constructor
      · exact div_nonneg (sq_nonneg _) (le_of_lt (mul_pos hxx hyy))
      · rw [div_le_one (mul_pos hxx hyy)]
        exact Finset.sum_mul_sq_le_sq_mul_sq (Finset.range n)
          (fun i => (i : ℚ) - xm) (fun i => values.getD i 0 - ym)

/-- A 2-point series as a one-step arithmetic series. -/
lemma pair_eq_arithList (a b : ℚ) : arithList 2 a (b - a) = [a, b] := by
  rw [arithList]
  norm_num [List.range_succ]

lemma replicate_headD (n : ℕ) (k : ℚ) (h : 1 ≤ n) : (List.replicate n k).headD 0 = k := by
  cases n with
  | zero => omega
  | succ m => rfl

lemma replicate_getLastD (n : ℕ) (k : ℚ) (h : 1 ≤ n) :
    (List.replicate n k).getLastD 0 = k := by
  cases n with
  | zero => omega
  | succ m => rw [List.replicate_succ', List.getLastD_concat]

lemma increasingCount_replicate (n : ℕ) (k : ℚ) :
    increasingCount (List.replicate n k) = 0 := by
  induction n with
  | zero => rfl
  | succ m ih =>
    cases m with
    | zero => rfl
    | succ m' =>
      rw [List.replicate_succ, List.replicate_succ, increasingCount, ← List.replicate_succ]
      rw [ih]
      simp

lemma replicate_getD (n : ℕ) (k : ℚ) (i : ℕ) (hi : i < n) :
    (List.replicate n k).getD i 0 = k := by
  rw [List.getD_eq_getElem _ _ (by simp; omega), List.getElem_replicate]

/-- A flat series hits the zero-variance guard: both outputs are zero. -/
lemma linearRegression_replicate (n : ℕ) (k : ℚ) :
    linearRegression (List.replicate n k) = (0, 0) := by
  by_cases h : n < 2
  · simp [linearRegression, h]
  · have hn0 : (n : ℚ) ≠ 0 := Nat.cast_ne_zero.mpr (by omega)
    have hym : (List.replicate n k).sum / (n : ℚ) = k := by
      rw [List.sum_replicate, nsmul_eq_mul]
      field_simp
    simp only [linearRegression, List.length_replicate]
    rw [if_neg h, hym]
    rw [if_pos]
    right
    apply Finset.sum_eq_zero
    intro i hi
    rw [replicate_getD n k i (Finset.mem_range.mp hi)]
    simp

/-! Helper lemmas for the streaming detector. -/

lemma checkLeak_notFull (cfg : DetCfg) (st : DetState)
    (h : st.hist.length < cfg.windowSize) : checkLeak cfg st = (none, st) := by
  rw [checkLeak, if_pos h]

lemma checkLeak_cooling (cfg : DetCfg) (st : DetState)
    (h1 : ¬ st.hist.length < cfg.windowSize) (h2 : 0 < st.cooldown) :
    checkLeak cfg st = (none, st) := by
  rw [checkLeak, if_neg h1, if_pos h2]

lemma sum_drop (l : List ℚ) (n : ℕ) : (l.drop n).sum = l.sum - (l.take n).sum := by
  have h := congrArg List.sum (List.take_append_drop n l)
  rw [List.sum_append] at h
  linarith

/-- A strictly growing arithmetic series increases at every adjacent pair. -/
lemma increasingCount_arith (d : ℚ) (hd : 0 < d) :
    ∀ (w : ℕ) (s : ℚ), increasingCount (arithList (w + 1) s d) = w := by
  intro w
  induction w with
  | zero =>
    intro s
    show increasingCount (arithList 1 s d) = 0
    rw [arithList_cons]
    rfl
  | succ m ih =>
    intro s
    rw [arithList_cons, arithList_cons, increasingCount, ← arithList_cons]
    rw [ih (s + d)]
    rw [if_pos (by linarith)]
    omega

/-- Ingesting the next sample while the buffer is still filling. -/
lemma addSample_grow (w : ℕ) (θ : ℚ) (cd : ℤ) (a d : ℚ) (m : ℕ) (hm : m + 1 ≤ w) :
    addSample ⟨w, θ, cd⟩ ⟨arithList m a d, 0⟩ (a + d * m) = ⟨arithList (m + 1) a d, 0⟩ := by
  rw [addSample, pushWindow]
  congr 1
  show (arithList m a d ++ [a + d * m]).drop ((arithList m a d ++ [a + d * m]).length - w) =
    arithList (m + 1) a d
  rw [← arithList_snoc, arithList_length, show m + 1 - w = 0 by omega, List.drop_zero]

/-- Ingesting the next sample of the arithmetic stream into a full window
slides the window one step forward. -/
lemma addSample_slide (w : ℕ) (θ : ℚ) (cd : ℤ) (s d : ℚ) (co : ℤ) :
    addSample ⟨w, θ, cd⟩ ⟨arithList w s d, co⟩ (s + d * w) =
      ⟨arithList w (s + d) d, if 0 < co then co - 1 else co⟩ := by
  rw [addSample, pushWindow]
  congr 1
  show (arithList w s d ++ [s + d * w]).drop ((arithList w s d ++ [s + d * w]).length - w) =
    arithList w (s + d) d
  rw [← arithList_snoc, arithList_length]
  rw [show w + 1 - w = 1 by omega, arithList_cons, List.drop_one, List.tail_cons]

/-- On a full arithmetic window with zero cooldown the gate holds (the
half-average growth is exactly `d * w / 2` and the trend is `1`), so
`check_leak` fires and resets the cooldown counter. -/
lemma checkLeak_fires (w : ℕ) (θ : ℚ) (cd : ℤ) (s d : ℚ) (hw : 2 ≤ w) (hd : 0 < d)
    (hθ : θ ≤ d * w / 2) :
    ∃ al, checkLeak ⟨w, θ, cd⟩ ⟨arithList w s d, 0⟩ = (some al, ⟨arithList w s d, cd⟩) := by
  have hlen : (arithList w s d).length = w := arithList_length w s d
  simp only [checkLeak, hlen]
  rw [if_neg (lt_irrefl w)]
  rw [if_neg (by norm_num)]
  obtain ⟨m, rfl⟩ : ∃ m, w = m + 1 := ⟨w - 1, by omega⟩
  have hT : (↑(increasingCount (arithList (m + 1) s d)) : ℚ) / (↑(m + 1) - 1) = 1 := by
    rw [increasingCount_arith d hd m s]
    have hm : (1 : ℚ) ≤ (m : ℚ) := by exact_mod_cast (by omega : 1 ≤ m)
    push_cast
    rw [add_sub_cancel_right]
    exact div_self (by linarith)
  have hq1 : (1 : ℚ) ≤ (((m + 1) / 2 : ℕ) : ℚ) := by
    exact_mod_cast (by omega : 1 ≤ (m + 1) / 2)
  have hq2 : (((m + 1) / 2 : ℕ) : ℚ) + 1 ≤ ((m + 1 : ℕ) : ℚ) := by
    exact_mod_cast (by omega : (m + 1) / 2 + 1 ≤ m + 1)
  have hG : (List.drop ((m + 1) / 2) (arithList (m + 1) s d)).sum / ↑(m + 1 - (m + 1) / 2) -
      (List.take ((m + 1) / 2) (arithList (m + 1) s d)).sum / ↑((m + 1) / 2) =
      d * ↑(m + 1) / 2 := by
    rw [sum_drop, arithList_take (m + 1) ((m + 1) / 2) s d (by omega), arithList_sum,
      arithList_sum]
    rw [Nat.cast_sub (by omega : (m + 1) / 2 ≤ m + 1)]
    generalize hqg : (((m + 1) / 2 : ℕ) : ℚ) = q at hq1 hq2 ⊢
    generalize hwg : ((m + 1 : ℕ) : ℚ) = W at hq2 ⊢
    have hne1 : q ≠ 0 := by linarith
    have hne2 : W - q ≠ 0 := by
      intro h0
      rw [sub_eq_zero] at h0
      rw [← h0] at hq2
      linarith
    field_simp
    ring
  rw [hG, hT]
  rw [if_pos ⟨by push_cast at hθ ⊢; linarith, by norm_num⟩]
  exact ⟨_, rfl⟩

/-- While the buffer is filling, each add-then-check step leaves the
accumulated arithmetic prefix and a zero cooldown. -/
lemma runDet_accum (w c : ℕ) (θ a d : ℚ) (n : ℕ) (hn : n < w) :
    runDet ⟨w, θ, (c : ℤ)⟩ (fun i => a + d * (i : ℚ)) n = ⟨arithList n a d, 0⟩ := by
  induction n with
  | zero => rfl
  | succ m ih =>
    rw [runDet, step, ih (by omega)]
    have hadd := addSample_grow w θ (c : ℤ) a d m (by omega)
    rw [hadd, checkLeak_notFull _ _
      (show (arithList (m + 1) a d).length < w by rw [arithList_length]; omega)]

/-- The step that fills the buffer fires the first alert and loads the
cooldown counter. -/
lemma first_alert (w c : ℕ) (θ a d : ℚ) (hw : 2 ≤ w) (hd : 0 < d) (hθ : θ ≤ d * w / 2) :
    (outAt ⟨w, θ, (c : ℤ)⟩ (fun i => a + d * (i : ℚ)) (w - 1)).isSome = true ∧
    runDet ⟨w, θ, (c : ℤ)⟩ (fun i => a + d * (i : ℚ)) w = ⟨arithList w a d, (c : ℤ)⟩ := by
  obtain ⟨m, rfl⟩ : ∃ m, w = m + 1 := ⟨w - 1, by omega⟩
  have hacc := runDet_accum (m + 1) c θ a d m (by omega)
  obtain ⟨al, hal⟩ := checkLeak_fires (m + 1) θ (c : ℤ) a d hw hd hθ
  have hstep : step ⟨m + 1, θ, (c : ℤ)⟩ (runDet ⟨m + 1, θ, (c : ℤ)⟩ (fun i => a + d * (i : ℚ)) m)
      ((fun i => a + d * (i : ℚ)) m) = (some al, ⟨arithList (m + 1) a d, (c : ℤ)⟩) := by
    rw [step, hacc]
    show checkLeak _ (addSample ⟨m + 1, θ, (c : ℤ)⟩ ⟨arithList m a d, 0⟩ (a + d * m)) = _
    rw [addSample_grow (m + 1) θ (c : ℤ) a d m (by omega), hal]
  constructor
  · show (outAt ⟨m + 1, θ, (c : ℤ)⟩ (fun i => a + d * (i : ℚ)) (m + 1 - 1)).isSome = true
    rw [show m + 1 - 1 = m by omega, outAt, hstep]
    rfl
  · show runDet ⟨m + 1, θ, (c : ℤ)⟩ (fun i => a + d * (i : ℚ)) (m + 1) = _
    rw [runDet, hstep]

/-- During the cooldown phase the window keeps sliding while the counter
counts down, and no further check fires yet. -/
lemma runDet_cool (w c : ℕ) (θ a d : ℚ) (hw : 2 ≤ w) (hd : 0 < d) (hθ : θ ≤ d * w / 2)
    (hc : 1 ≤ c) :
    ∀ k, k ≤ c - 1 →
      runDet ⟨w, θ, (c : ℤ)⟩ (fun i => a + d * (i : ℚ)) (w + k) =
        ⟨arithList w (a + d * k) d, (c : ℤ) - k⟩ := by
  intro k
  induction k with
  | zero =>
    intro _
    simpa using (first_alert w c θ a d hw hd hθ).2
  | succ j ih =>
    intro hj
    have hst := ih (by omega)
    show runDet ⟨w, θ, (c : ℤ)⟩ (fun i => a + d * (i : ℚ)) ((w + j) + 1) = _
    rw [runDet, step, hst]
    rw [show a + d * ((w + j : ℕ) : ℚ) = (a + d * (j : ℚ)) + d * (w : ℚ) by push_cast; ring]
    rw [addSample_slide w θ (c : ℤ) (a + d * (j : ℚ)) d ((c : ℤ) - (j : ℤ))]
    rw [if_pos (by omega : (0 : ℤ) < (c : ℤ) - (j : ℤ))]
    rw [checkLeak_cooling _ _
      (show ¬ (arithList w (a + d * (j : ℚ) + d) d).length < w by rw [arithList_length]; omega)
      (show (0 : ℤ) < (c : ℤ) - (j : ℤ) - 1 by omega)]
    have : a + d * (j : ℚ) + d = a + d * ((j + 1 : ℕ) : ℚ) := by push_cast; ring
    rw [this]
    push_cast
    ring_nf

/-! Claim theorems. -/

/-- C1 (counterexample): three samples with rss 100, 115, 130 satisfy every
condition the claim lists (growth% = 30 ≥ 15, trend = 1 ≥ 0.7, R² = 1 ≥ 0.6,
no uss delta, n = 3), yet `analyze_samples` returns confidence "medium" with
score 60 — not "high" with 85 as claimed: the high tier additionally
requires at least 5 samples. -/
theorem c1_counterexample :
    15 ≤ (metricDelta (threeGrowthSamples.map (fun s => (s.rss : ℚ)))).growthPercent.getD 0 ∧
    (7/10 : ℚ) ≤ (metricDelta (threeGrowthSamples.map (fun s => (s.rss : ℚ)))).increasingFrac ∧
    (6/10 : ℚ) ≤ (metricDelta (threeGrowthSamples.map (fun s => (s.rss : ℚ)))).rSquared ∧
    optionalMetricDelta (threeGrowthSamples.map (fun s => s.uss)) = none ∧
    threeGrowthSamples.length = 3 ∧
    (analyzeSamples threeGrowthSamples 1).map (fun a => (a.confidence, a.score)) =
      Except.ok ("medium", 60) := by
  norm_num [analyzeSamples, threeGrowthSamples, rssSample, metricDelta, optionalMetricDelta,
    confidenceFromMetrics, checkResourceCorrelation, resourceGrowing, linearRegression,
    increasingFrac, increasingCount, Finset.sum_range_succ, List.getD, Except.map]

/-- C1 (amended): with rss growth% ≥ 15, trend ≥ 0.7, R² ≥ 0.6 and no uss
delta, `analyze_samples` returns confidence "high" with score 85 when the
sample count is at least 5; for sample counts 3 and 4 (the claim's cases)
the short-window penalty yields confidence "medium" with score 60 instead. -/
theorem c1_high_confidence_amended (samples : List LeakSample) (i : ℚ)
    (hg : 15 ≤ (metricDelta (samples.map (fun s => (s.rss : ℚ)))).growthPercent.getD 0)
    (ht : (7/10 : ℚ) ≤ (metricDelta (samples.map (fun s => (s.rss : ℚ)))).increasingFrac)
    (hr : (6/10 : ℚ) ≤ (metricDelta (samples.map (fun s => (s.rss : ℚ)))).rSquared)
    (hu : optionalMetricDelta (samples.map (fun s => s.uss)) = none) :
    (5 ≤ samples.length →
      (analyzeSamples samples i).map (fun a => (a.confidence, a.score)) =
        Except.ok ("high", 85)) ∧
    (samples.length = 3 ∨ samples.length = 4 →
      (analyzeSamples samples i).map (fun a => (a.confidence, a.score)) =
        Except.ok ("medium", 60)) := by
  constructor
  · intro h5
    have hne : samples.isEmpty = false := by
      cases samples with
      | nil => simp at h5
      | cons s ss => rfl
    simp only [analyzeSamples, hne, Bool.false_eq_true, if_false, Except.map]
    simp only [confidenceFromMetrics, hu]
    rw [if_neg (by omega : ¬ samples.length < 3)]
    rw [if_pos ⟨hg, ht, hr, by omega⟩]
    rw [if_neg (by simp)]
  · intro h34
    have hne : samples.isEmpty = false := by
      cases samples with
      | nil => simp at h34
      | cons s ss => rfl
    simp only [analyzeSamples, hne, Bool.false_eq_true, if_false, Except.map]
    simp only [confidenceFromMetrics, hu]
    rw [if_neg (by omega : ¬ samples.length < 3)]
    rw [if_neg (by
      intro hcon
      exact absurd hcon.2.2.2 (by simp; omega))]
    rw [if_neg (by
      intro hcon
      exact absurd hcon.2.2 (by simp; omega))]
    rw [if_pos ⟨by linarith, by linarith⟩]
    rw [if_neg (by simp)]

/-- C1 (witness): the amended theorem applied to five samples with rss
100, 115, 130, 145, 160 and no uss readings. -/
theorem c1_high_confidence_amended_witness :
    15 ≤ (metricDelta (fiveGrowthSamples.map (fun s => (s.rss : ℚ)))).growthPercent.getD 0 ∧
    (7/10 : ℚ) ≤ (metricDelta (fiveGrowthSamples.map (fun s => (s.rss : ℚ)))).increasingFrac ∧
    (6/10 : ℚ) ≤ (metricDelta (fiveGrowthSamples.map (fun s => (s.rss : ℚ)))).rSquared ∧
    optionalMetricDelta (fiveGrowthSamples.map (fun s => s.uss)) = none ∧
    5 ≤ fiveGrowthSamples.length ∧
    (analyzeSamples fiveGrowthSamples 1).map (fun a => (a.confidence, a.score)) =
      Except.ok ("high", 85) := by
  have hg : 15 ≤ (metricDelta (fiveGrowthSamples.map (fun s => (s.rss : ℚ)))).growthPercent.getD 0 := by
    norm_num [fiveGrowthSamples, rssSample, metricDelta, linearRegression, increasingFrac,
      increasingCount, Finset.sum_range_succ, List.getD]
  have ht : (7/10 : ℚ) ≤ (metricDelta (fiveGrowthSamples.map (fun s => (s.rss : ℚ)))).increasingFrac := by
    norm_num [fiveGrowthSamples, rssSample, metricDelta, linearRegression, increasingFrac,
      increasingCount, Finset.sum_range_succ, List.getD]
  have hr : (6/10 : ℚ) ≤ (metricDelta (fiveGrowthSamples.map (fun s => (s.rss : ℚ)))).rSquared := by
    norm_num [fiveGrowthSamples, rssSample, metricDelta, linearRegression, increasingFrac,
      increasingCount, Finset.sum_range_succ, List.getD]
  have hu : optionalMetricDelta (fiveGrowthSamples.map (fun s => s.uss)) = none := by
    norm_num [fiveGrowthSamples, rssSample, optionalMetricDelta]
  exact ⟨hg, ht, hr, hu, by norm_num [fiveGrowthSamples],
    (c1_high_confidence_amended fiveGrowthSamples 1 hg ht hr hu).1
      (by norm_num [fiveGrowthSamples])⟩

/-- C2 (counterexample): with `window_size = 2`, `cooldown_samples = 1` and
the stream `0, 1, 2, …` against threshold 1, the first full-buffer check
(step 1) alerts, and — contrary to the claim that the next
`cooldown_samples = 1` checks are suppressed — the very next check (step 2)
alerts again: `add_sample` has already decremented the counter to zero
before that check runs. -/
theorem c2_counterexample :
    (outAt cfgCooldownOne idStream 1).isSome = true ∧
    (outAt cfgCooldownOne idStream 2).isSome = true := by
  norm_num [outAt, runDet, step, addSample, checkLeak, pushWindow, increasingCount,
    cfgCooldownOne, idStream, initState]

/-- C2 (amended): driving a detector (window `w ≥ 2`, cooldown `c ≥ 1`,
threshold at most `d·w/2`) with add-then-check steps on the constant-growth
stream `a, a+d, a+2d, …` (`d > 0`, so the half-average growth is `d·w/2 ≥`
threshold and the trend is 1 ≥ 0.6 at every full window): every check
before the buffer holds `w` samples returns no-alert; the first check with
a full buffer (step `w−1`) alerts; the next `c − 1` checks (each preceded
by one add_sample) return no-alert even though the gate condition still
holds; and the `c`-th check after the alert (cooldown having reached zero)
alerts again. -/
theorem c2_cooldown_cycle_amended (w c : ℕ) (θ a d : ℚ) (hw : 2 ≤ w) (hc : 1 ≤ c)
    (hd : 0 < d) (hθ : θ ≤ d * w / 2) :
    (∀ i, i < w - 1 → outAt ⟨w, θ, (c : ℤ)⟩ (fun i => a + d * (i : ℚ)) i = none) ∧
    (outAt ⟨w, θ, (c : ℤ)⟩ (fun i => a + d * (i : ℚ)) (w - 1)).isSome = true ∧
    (∀ k, 1 ≤ k → k ≤ c - 1 →
      outAt ⟨w, θ, (c : ℤ)⟩ (fun i => a + d * (i : ℚ)) (w - 1 + k) = none) ∧
    (outAt ⟨w, θ, (c : ℤ)⟩ (fun i => a + d * (i : ℚ)) (w - 1 + c)).isSome = true := by
  refine ⟨?_, (first_alert w c θ a d hw hd hθ).1, ?_, ?_⟩
  · intro i hi
    rw [outAt, step, runDet_accum w c θ a d i (by omega)]
    show (checkLeak _ (addSample ⟨w, θ, (c : ℤ)⟩ ⟨arithList i a d, 0⟩ (a + d * i))).1 = none
    rw [addSample_grow w θ (c : ℤ) a d i (by omega)]
    rw [checkLeak_notFull _ _
      (show (arithList (i + 1) a d).length < w by rw [arithList_length]; omega)]
  · intro k hk1 hk2
    rw [show w - 1 + k = w + (k - 1) by omega]
    rw [outAt, step, runDet_cool w c θ a d hw hd hθ hc (k - 1) (by omega)]
    rw [show a + d * ((w + (k - 1) : ℕ) : ℚ) = (a + d * ((k - 1 : ℕ) : ℚ)) + d * (w : ℚ)
      by push_cast; ring]
    rw [addSample_slide w θ (c : ℤ) (a + d * ((k - 1 : ℕ) : ℚ)) d ((c : ℤ) - ((k - 1 : ℕ) : ℤ))]
    rw [if_pos (by
      have : ((k - 1 : ℕ) : ℤ) ≤ (c : ℤ) - 2 := by omega
      omega : (0 : ℤ) < (c : ℤ) - ((k - 1 : ℕ) : ℤ))]
    rw [checkLeak_cooling _ _
      (show ¬ (arithList w (a + d * ((k - 1 : ℕ) : ℚ) + d) d).length < w by
        rw [arithList_length]; omega)
      (show (0 : ℤ) < (c : ℤ) - ((k - 1 : ℕ) : ℤ) - 1 by omega)]
  · rw [show w - 1 + c = w + (c - 1) by omega]
    rw [outAt, step, runDet_cool w c θ a d hw hd hθ hc (c - 1) (by omega)]
    rw [show a + d * ((w + (c - 1) : ℕ) : ℚ) = (a + d * ((c - 1 : ℕ) : ℚ)) + d * (w : ℚ)
      by push_cast; ring]
    rw [addSample_slide w θ (c : ℤ) (a + d * ((c - 1 : ℕ) : ℚ)) d ((c : ℤ) - ((c - 1 : ℕ) : ℤ))]
    rw [if_pos (by omega : (0 : ℤ) < (c : ℤ) - ((c - 1 : ℕ) : ℤ))]
    rw [show (c : ℤ) - ((c - 1 : ℕ) : ℤ) - 1 = 0 by omega]
    obtain ⟨al, hal⟩ := checkLeak_fires w θ (c : ℤ) (a + d * ((c - 1 : ℕ) : ℚ) + d) d hw hd hθ
    rw [hal]
    rfl

/-- C2 (witness): the amended theorem at window 3, cooldown 3, threshold 1
on the stream `50, 60, 70, …`: no alert at step 0, first alert at step 2,
suppressed at step 3, alert again at step 5. -/
theorem c2_cooldown_cycle_amended_witness :
    2 ≤ 3 ∧ 1 ≤ 3 ∧ (0 : ℚ) < 10 ∧ (1 : ℚ) ≤ 10 * ((3 : ℕ) : ℚ) / 2 ∧
    outAt cfgWitness growthStream 0 = none ∧
    (outAt cfgWitness growthStream 2).isSome = true ∧
    outAt cfgWitness growthStream 3 = none ∧
    (outAt cfgWitness growthStream 5).isSome = true := by
  have h := c2_cooldown_cycle_amended 3 3 1 50 10 (by norm_num) (by norm_num) (by norm_num)
    (by norm_num)
  exact ⟨by norm_num, by norm_num, by norm_num, by norm_num,
    h.1 0 (by norm_num), h.2.1, h.2.2.1 1 (by norm_num) (by norm_num), h.2.2.2⟩

/-- C3 (counterexample): `analyze_samples` on one sample with
`interval_seconds = 0` (non-positive) raises no error at all, and
`MemoryLeakDetector(window_size=0, …)` constructs without error — the
validations the claim describes do not exist in the code. -/
theorem c3_counterexample :
    (analyzeSamples [rssSample 100] 0).isOk = true ∧
    (mkDetector 0 5 3).isOk = true :=
  ⟨rfl, rfl⟩

/-- C3 (amended): no such validation happens. `analyze_samples` with a
non-empty list accepts any non-positive interval and returns a
`LeakAnalysis` whose duration is clamped to 0; `MemoryLeakDetector`
construction accepts `window_size = 0` and any non-positive
`growth_threshold` (only a negative `window_size` raises, from the
`deque(maxlen=…)` contract). -/
theorem c3_no_validation_amended :
    (∀ (s : LeakSample) (ss : List LeakSample) (i : ℚ), i ≤ 0 →
      ∃ a, analyzeSamples (s :: ss) i = Except.ok a ∧ a.durationSeconds = 0) ∧
    (∀ (θ : ℚ) (cd : ℤ), (mkDetector 0 θ cd).isOk = true) ∧
    (∀ (w : ℤ) (θ : ℚ) (cd : ℤ), 0 ≤ w → θ ≤ 0 → (mkDetector w θ cd).isOk = true) := by
  refine ⟨fun s ss i hi => ⟨_, rfl, ?_⟩, fun θ cd => rfl, fun w θ cd hw _ => ?_⟩
  · show max 0 (((((s :: ss).length : ℚ)) - 1) * i) = 0
    have h1 : (0 : ℚ) ≤ ((s :: ss).length : ℚ) - 1 := by
      simp only [List.length_cons]
      push_cast
      linarith [Nat.cast_nonneg (α := ℚ) ss.length]
    exact max_eq_left (mul_nonpos_of_nonneg_of_nonpos h1 hi)
  · simp only [mkDetector, if_neg (by omega : ¬ w < 0), Except.isOk, Except.toBool]

/-- C3 (witness): the amended theorem at one sample with interval −1, and
at detector configurations (0, 5, 3) and (4, −2, 3). -/
theorem c3_no_validation_amended_witness :
    ((-1 : ℚ) ≤ 0 ∧
      ∃ a, analyzeSamples [rssSample 100] (-1) = Except.ok a ∧ a.durationSeconds = 0) ∧
    (mkDetector 0 5 3).isOk = true ∧
    (0 ≤ (4 : ℤ) ∧ (-2 : ℚ) ≤ 0 ∧ (mkDetector 4 (-2) 3).isOk = true) :=
  ⟨⟨by norm_num, c3_no_validation_amended.1 (rssSample 100) [] (-1) (by norm_num)⟩,
   c3_no_validation_amended.2.1 5 3,
   by norm_num, by norm_num, c3_no_validation_amended.2.2 4 (-2) 3 (by norm_num) (by norm_num)⟩

/-- C4: `analyze_samples` raises the "empty input" error exactly on the
empty list: the empty list always yields that error, and every non-empty
list yields a `LeakAnalysis` record with no error. -/
theorem c4_empty_input_error :
    (∀ i : ℚ, analyzeSamples [] i = Except.error "samples cannot be empty") ∧
    (∀ (s : LeakSample) (ss : List LeakSample) (i : ℚ),
      ∃ a, analyzeSamples (s :: ss) i = Except.ok a) :=
  ⟨fun _ => rfl, fun _ _ _ => ⟨_, rfl⟩⟩

/-- C5: the r-squared returned by `_linear_regression` always lies in
`[0, 1]` (Cauchy–Schwarz bounds the squared cross-product sum by the
product of the sums of squares), and a perfectly linear series — any
arithmetic series with nonzero step, in particular any 2-point series with
distinct values — yields r-squared exactly 1. -/
theorem c5_r_squared_range :
    (∀ values : List ℚ,
      0 ≤ (linearRegression values).2 ∧ (linearRegression values).2 ≤ 1) ∧
    (∀ (n : ℕ) (a d : ℚ), 2 ≤ n → d ≠ 0 →
      (linearRegression (arithList n a d)).2 = 1) ∧
    (∀ a b : ℚ, a ≠ b → (linearRegression [a, b]).2 = 1) := by
  refine ⟨rSquared_bounds, fun n a d h2 hd => ?_, fun a b hab => ?_⟩
  · rw [linearRegression_arith n a d h2 hd]
  · rw [← pair_eq_arithList a b,
      linearRegression_arith 2 a (b - a) le_rfl (sub_ne_zero.mpr (Ne.symm hab))]

/-- C5 (witness): the range bounds at the noisy series `[1, 3, 2]`, the
perfect-line case at `arithList 3 0 1`, and the 2-point case at `[2, 5]`. -/
theorem c5_r_squared_range_witness :
    (0 ≤ (linearRegression [1, 3, 2]).2 ∧ (linearRegression [1, 3, 2]).2 ≤ 1) ∧
    (2 ≤ 3 ∧ (1 : ℚ) ≠ 0 ∧ (linearRegression (arithList 3 0 1)).2 = 1) ∧
    ((2 : ℚ) ≠ 5 ∧ (linearRegression [2, 5]).2 = 1) :=
  ⟨c5_r_squared_range.1 [1, 3, 2],
   ⟨by norm_num, by norm_num, c5_r_squared_range.2.1 3 0 1 (by norm_num) (by norm_num)⟩,
   ⟨by norm_num, c5_r_squared_range.2.2 2 5 (by norm_num)⟩⟩

/-- C6: on every arithmetic series `values[i] = a + i·d` of length `n ≥ 2`
with step `d > 0`, `_linear_regression` returns slope `d` and r-squared 1. -/
theorem c6_arith_series_regression (n : ℕ) (a d : ℚ) (h2 : 2 ≤ n) (hd : 0 < d) :
    linearRegression (arithList n a d) = (d, 1) :=
  linearRegression_arith n a d h2 (ne_of_gt hd)

/-- C6 (witness): the theorem at the length-4 series `0, 2, 4, 6`. -/
theorem c6_arith_series_regression_witness :
    2 ≤ 4 ∧ (0 : ℚ) < 2 ∧ linearRegression (arithList 4 0 2) = (2, 1) :=
  ⟨by norm_num, by norm_num, c6_arith_series_regression 4 0 2 (by norm_num) (by norm_num)⟩

/-- C7: on every non-empty constant series `_metric_delta` returns growth 0,
increasing fraction 0, slope 0 and r-squared 0 — the division-by-zero
guards make the flat-series case total. -/
theorem c7_constant_series (n : ℕ) (k : ℚ) (h : 1 ≤ n) :
    (metricDelta (List.replicate n k)).growth = 0 ∧
    (metricDelta (List.replicate n k)).increasingFrac = 0 ∧
    (metricDelta (List.replicate n k)).slope = 0 ∧
    (metricDelta (List.replicate n k)).rSquared = 0 := by
  simp only [metricDelta, increasingFrac, linearRegression_replicate,
    replicate_headD n k h, replicate_getLastD n k h, increasingCount_replicate,
    List.length_replicate]
  refine ⟨by ring, ?_, by simp, by simp⟩
  split_ifs <;> simp

/-- C7 (witness): the theorem at the constant series `5, 5, 5`. -/
theorem c7_constant_series_witness :
    1 ≤ 3 ∧
    (metricDelta (List.replicate 3 5)).growth = 0 ∧
    (metricDelta (List.replicate 3 5)).increasingFrac = 0 ∧
    (metricDelta (List.replicate 3 5)).slope = 0 ∧
    (metricDelta (List.replicate 3 5)).rSquared = 0 :=
  ⟨by norm_num, (c7_constant_series 3 5 (by norm_num)).1,
   (c7_constant_series 3 5 (by norm_num)).2.1,
   (c7_constant_series 3 5 (by norm_num)).2.2.1,
   (c7_constant_series 3 5 (by norm_num)).2.2.2⟩

/-- C8 (helper): one `add_sample` or `check_leak` preserves the buffer
bound and cooldown non-negativity (given a non-negative configured
cooldown). -/
lemma applyOp_inv (cfg : DetCfg) (hc : 0 ≤ cfg.cooldownSamples) (st : DetState)
    (h : st.hist.length ≤ cfg.windowSize ∧ 0 ≤ st.cooldown) (op : DetOp) :
    (applyOp cfg st op).hist.length ≤ cfg.windowSize ∧
      0 ≤ (applyOp cfg st op).cooldown := by
  cases op with
  | add v =>
    constructor
    · simp only [applyOp, addSample, pushWindow, List.length_drop, List.length_append,
        List.length_cons, List.length_nil]
      omega
    · simp only [applyOp, addSample]
      split_ifs with h1 <;> omega
  | check =>
    simp only [applyOp, checkLeak]
    split_ifs with h1 h2 h3
    · exact h
    · exact h
    · exact ⟨h.1, hc⟩
    · exact h

/-- C8: every state reachable by an arbitrary sequence of `add_sample` and
`check_leak` operations from a fresh detector keeps at most `window_size`
buffered samples (the oldest is evicted at capacity) and a non-negative
cooldown counter, provided the configured `cooldown_samples` is
non-negative (its default is 3). -/
theorem c8_detector_invariants (cfg : DetCfg) (ops : List DetOp)
    (hc : 0 ≤ cfg.cooldownSamples) :
    (runOps cfg ops).hist.length ≤ cfg.windowSize ∧ 0 ≤ (runOps cfg ops).cooldown := by
  rw [runOps]
  have key : ∀ (l : List DetOp) (st : DetState),
      st.hist.length ≤ cfg.windowSize ∧ 0 ≤ st.cooldown →
      (l.foldl (applyOp cfg) st).hist.length ≤ cfg.windowSize ∧
        0 ≤ (l.foldl (applyOp cfg) st).cooldown := by
    intro l
    induction l with
    | nil => exact fun st h => h
    | cons op rest ih =>
      intro st h
      rw [List.foldl_cons]
      exact ih _ (applyOp_inv cfg hc st h op)
  exact key ops initState ⟨by simp [initState], by simp [initState]⟩

/-- C8 (witness): the invariant after an eight-operation run on the
window-3 detector. -/
theorem c8_detector_invariants_witness :
    0 ≤ cfgWitness.cooldownSamples ∧
    (runOps cfgWitness
        [.add 1, .check, .add 2, .check, .add 3, .check, .add 4, .check]).hist.length ≤
      cfgWitness.windowSize ∧
    0 ≤ (runOps cfgWitness
        [.add 1, .check, .add 2, .check, .add 3, .check, .add 4, .check]).cooldown :=
  ⟨by decide,
   (c8_detector_invariants cfgWitness
     [.add 1, .check, .add 2, .check, .add 3, .check, .add 4, .check] (by decide)).1,
   (c8_detector_invariants cfgWitness
     [.add 1, .check, .add 2, .check, .add 3, .check, .add 4, .check] (by decide)).2⟩

/-- C9: `_check_resource_correlation` sets the correlated flag exactly when
at least one of the three deltas has growth > 0 and increasing fraction
≥ 0.6, and the warning list carries exactly one warning naming each
resource whose delta satisfies that condition, independently of the other
two. -/
theorem c9_resource_correlation (t f c : MetricDelta) :
    ((checkResourceCorrelation t f c).1 = true ↔
      ((0 < t.growth ∧ (6/10 : ℚ) ≤ t.increasingFrac) ∨
       (0 < f.growth ∧ (6/10 : ℚ) ≤ f.increasingFrac) ∨
       (0 < c.growth ∧ (6/10 : ℚ) ≤ c.increasingFrac))) ∧
    ((checkResourceCorrelation t f c).2.countP (fun x => x.kind == ResourceKind.threads) =
      if 0 < t.growth ∧ (6/10 : ℚ) ≤ t.increasingFrac then 1 else 0) ∧
    ((checkResourceCorrelation t f c).2.countP (fun x => x.kind == ResourceKind.openFiles) =
      if 0 < f.growth ∧ (6/10 : ℚ) ≤ f.increasingFrac then 1 else 0) ∧
    ((checkResourceCorrelation t f c).2.countP (fun x => x.kind == ResourceKind.connections) =
      if 0 < c.growth ∧ (6/10 : ℚ) ≤ c.increasingFrac then 1 else 0) := by
  simp only [checkResourceCorrelation, resourceGrowing]
  by_cases h1 : 0 < t.growth ∧ (6/10 : ℚ) ≤ t.increasingFrac <;>
    by_cases h2 : 0 < f.growth ∧ (6/10 : ℚ) ≤ f.increasingFrac <;>
      by_cases h3 : 0 < c.growth ∧ (6/10 : ℚ) ≤ c.increasingFrac <;>
        simp [h1, h2, h3, List.countP_cons, List.countP_nil, beq_iff_eq]

/-- C10: when `check_leak` returns no-alert — buffer not full, cooldown
active, or gate not met — the detector state is exactly unchanged; it
mutates state only on the alerting call, and then only by loading the
cooldown counter, leaving the buffer intact. -/
theorem c10_check_leak_frame (cfg : DetCfg) (st : DetState) :
    ((checkLeak cfg st).1 = none → (checkLeak cfg st).2 = st) ∧
    (∀ a, (checkLeak cfg st).1 = some a →
      (checkLeak cfg st).2.hist = st.hist ∧
      (checkLeak cfg st).2.cooldown = cfg.cooldownSamples) := by
  simp only [checkLeak]
  split_ifs with h1 h2 h3
  · exact ⟨fun _ => rfl, fun a ha => by simp at ha⟩
  · exact ⟨fun _ => rfl, fun a ha => by simp at ha⟩
  · exact ⟨fun h => by simp at h, fun a _ => ⟨rfl, rfl⟩⟩
  · exact ⟨fun _ => rfl, fun a ha => by simp at ha⟩

/-- C10 (witness): the frame property at a cooling-down state (no-alert
branch, state returned verbatim) and at a firing state (history kept,
cooldown loaded to the configured 3). -/
theorem c10_check_leak_frame_witness :
    ((checkLeak cfgWitness ⟨[1, 2, 3], 1⟩).1 = none ∧
      (checkLeak cfgWitness ⟨[1, 2, 3], 1⟩).2 = ⟨[1, 2, 3], 1⟩) ∧
    ((checkLeak cfgWitness ⟨[1, 2, 3], 0⟩).1 =
        some ⟨⟨"Memory Leak Detected", "memory.virtual.percent", "trend", 1⟩, 3/2⟩ ∧
      (checkLeak cfgWitness ⟨[1, 2, 3], 0⟩).2.hist = [1, 2, 3] ∧
      (checkLeak cfgWitness ⟨[1, 2, 3], 0⟩).2.cooldown = cfgWitness.cooldownSamples) := by
  have hfire : (checkLeak cfgWitness ⟨[1, 2, 3], 0⟩).1 =
      some ⟨⟨"Memory Leak Detected", "memory.virtual.percent", "trend", 1⟩, 3/2⟩ := by
    norm_num [checkLeak, cfgWitness, increasingCount]
  exact ⟨⟨rfl, (c10_check_leak_frame cfgWitness ⟨[1, 2, 3], 1⟩).1 rfl⟩,
    ⟨hfire, (c10_check_leak_frame cfgWitness ⟨[1, 2, 3], 0⟩).2 _ hfire⟩⟩

end ThirtySecs
